import Mathlib

/-!
# TrustMesh core services — shallow embedding

A shallow embedding of the three core TrustMesh services:

* `ReputationLedger` (`packages/trustmesh-mcp/src/services/reputation-ledger.ts`)
* `AgentRegistry` (`packages/trustmesh-mcp/src/services/agent-registry.ts`)
* `MissionManager` (`packages/trustmesh-agent/src/services/mission-manager.ts`)

Modelling conventions:

* The SQLite table `reputation_records` is a list of `ReputationRecord`s in
  insertion order; `SELECT ... WHERE agent_id = ?` is `List.filter`.
* JavaScript numbers that hold integer quantities (scores, timestamps,
  rewards) are `Int`; derived fractional quantities (match scores,
  `avgQuality`) are `Rat`.
* `randomUUID()` and `Date.now()` are modelled as explicit parameters
  (`id`, `now`); where an id is irrelevant to every stated property it is
  passed as `""`.
* A thrown `Error` is `Except.error` with an `MError` tag identifying the
  throw site (the TS code throws plain `Error`s with messages; the tags
  follow the design document's error kinds).
* JS `Map` iteration order is insertion order, so a registry / mission store
  is a list.
-/

namespace TrustMesh

/-- `ReputationRecord["category"]` from `reputation-ledger.ts`. -/
inductive Category
  | completion
  | quality
  | collaboration
  | speed
deriving DecidableEq, Repr

/-- `ReputationRecord` from `reputation-ledger.ts` (the optional blockchain
`txHash` is informational only and omitted). -/
structure ReputationRecord where
  id : String
  agentId : String
  missionId : String
  score : Int
  category : Category
  timestamp : Int
  verifiedBy : String
deriving DecidableEq, Repr

/-- The `reputation_records` table, in insertion order. -/
abbrev Ledger := List ReputationRecord

/-- `ReputationLedger.recordReputation`: builds the record and appends it to
the table.  `id` and `now` stand for `randomUUID()` and `Date.now()`. -/
def recordReputation (db : Ledger) (agentId missionId : String) (score : Int)
    (category : Category) (verifiedBy : String) (id : String) (now : Int) :
    ReputationRecord × Ledger :=
  let record : ReputationRecord :=
    { id, agentId, missionId, score, category, timestamp := now, verifiedBy }
  (record, db ++ [record])

/-- `AgentReputation["trustLevel"]` from `reputation-ledger.ts`. -/
inductive TrustLevel
  | unverified
  | bronze
  | silver
  | gold
  | diamond
deriving DecidableEq, Repr

/-- The ordered array `["unverified", "bronze", "silver", "gold", "diamond"]`
used by `verifyTrust` and by the discovery trust filter. -/
def trustLevels : List TrustLevel :=
  [.unverified, .bronze, .silver, .gold, .diamond]

/-- `AgentReputation` from `reputation-ledger.ts`. -/
structure AgentReputation where
  agentId : String
  totalScore : Int
  completedMissions : Nat
  avgQuality : Rat
  trustLevel : TrustLevel
  lastActive : Int
deriving DecidableEq, Repr

/-- `ReputationLedger.calculateTrustLevel`. -/
def calculateTrustLevel (score : Int) (missions : Nat) : TrustLevel :=
  if missions < 1 then .unverified
  else if 1000 ≤ score ∧ 50 ≤ missions then .diamond
  else if 500 ≤ score ∧ 25 ≤ missions then .gold
  else if 200 ≤ score ∧ 10 ≤ missions then .silver
  else if 50 ≤ score ∧ 3 ≤ missions then .bronze
  else .unverified

/-- `ReputationLedger.getAgentReputation`. -/
def getAgentReputation (db : Ledger) (agentId : String) : AgentReputation :=
  let records := db.filter (fun r => r.agentId = agentId)
  if records.isEmpty then
    { agentId, totalScore := 0, completedMissions := 0, avgQuality := 0,
      trustLevel := .unverified, lastActive := 0 }
  else
    let totalScore := records.foldl (fun sum r => sum + r.score) 0
    let qualityRecords := records.filter (fun r => r.category = Category.quality)
    let avgQuality : Rat :=
      if 0 < qualityRecords.length then
        ((qualityRecords.foldl (fun sum r => sum + r.score) 0 : Int) : Rat) /
          (qualityRecords.length : Rat)
      else 0
    let uniqueMissions := (records.map (fun r => r.missionId)).dedup.length
    let lastActive :=
      match records.map (fun r => r.timestamp) with
      | [] => 0
      | t :: ts => ts.foldl max t
    { agentId, totalScore, completedMissions := uniqueMissions, avgQuality,
      trustLevel := calculateTrustLevel totalScore uniqueMissions, lastActive }

/-- `ReputationLedger.verifyTrust`:
`levels.indexOf(rep.trustLevel) >= levels.indexOf(minLevel)`. -/
def verifyTrust (db : Ledger) (agentId : String) (minLevel : TrustLevel) : Bool :=
  let rep := getAgentReputation db agentId
  trustLevels.indexOf minLevel ≤ trustLevels.indexOf rep.trustLevel

/-- `AgentProfile` from `agent-registry.ts` (the open `metadata` bag is
outside the core data model and omitted). -/
structure AgentProfile where
  id : String
  name : String
  description : String
  capabilities : List String
  walletAddress : Option String
  mcpEndpoint : Option String
  createdAt : Int
  lastSeen : Int
deriving DecidableEq, Repr

/-- `this.agents : Map<string, AgentProfile>` in insertion order. -/
abbrev Registry := List AgentProfile

/-- `AgentDiscoveryResult` from `agent-registry.ts`. -/
structure AgentDiscoveryResult where
  agent : AgentProfile
  reputation : AgentReputation
  matchScore : Rat
deriving DecidableEq, Repr

/-- The discovery trust filter: with a `minTrustLevel` given, the loop
`continue`s when `levels.indexOf(reputation.trustLevel) < levels.indexOf(minTrustLevel)`. -/
def discoverCheckTrust (minTrustLevel : Option TrustLevel) (rep : AgentReputation) : Bool :=
  match minTrustLevel with
  | none => true
  | some minL => trustLevels.indexOf minL ≤ trustLevels.indexOf rep.trustLevel

/-- The capability part of the discovery loop body: `matchScore` starts at
`1.0`; with a non-empty `requiredCapabilities` it becomes
`matchedCaps.length / requiredCapabilities.length`, and a ratio of exactly 0
makes the loop `continue` (`none`). -/
def capabilityBase (requiredCapabilities : Option (List String))
    (agent : AgentProfile) : Option Rat :=
  match requiredCapabilities with
  | none => some 1
  | some req =>
    if 0 < req.length then
      let matchedCaps := req.filter (fun cap => agent.capabilities.contains cap)
      let ms : Rat := (matchedCaps.length : Rat) / (req.length : Rat)
      if ms = 0 then none else some ms
    else some 1

/-- `const repBonus = Math.min(reputation.totalScore / 1000, 0.5)`. -/
def reputationBonus (rep : AgentReputation) : Rat :=
  min ((rep.totalScore : Rat) / 1000) (1 / 2)

/-- One iteration of the `discoverAgents` loop: `none` when the loop
`continue`s past the agent, `some` result when it pushes one. -/
def discoverAgentEntry (db : Ledger) (requiredCapabilities : Option (List String))
    (minTrustLevel : Option TrustLevel) (agent : AgentProfile) :
    Option AgentDiscoveryResult :=
  let reputation := getAgentReputation db agent.id
  if discoverCheckTrust minTrustLevel reputation then
    match capabilityBase requiredCapabilities agent with
    | none => none
    | some base =>
      some { agent, reputation,
             matchScore := min 1 (base + reputationBonus reputation) }
  else none

/-- `AgentRegistry.discoverAgents`: loop over the registry, sort descending
by `matchScore` (`(a, b) => b.matchScore - a.matchScore`, a stable sort),
truncate to `maxResults`. -/
def discoverAgents (agents : Registry) (db : Ledger)
    (requiredCapabilities : Option (List String))
    (minTrustLevel : Option TrustLevel) (maxResults : Nat) :
    List AgentDiscoveryResult :=
  ((agents.filterMap (discoverAgentEntry db requiredCapabilities minTrustLevel)).insertionSort
      (fun a b => b.matchScore ≤ a.matchScore)).take maxResults

/-- `AgentRegistry.getAgent` / `this.agents.get(agentId)`. -/
def getAgent (agents : Registry) (agentId : String) : Option AgentProfile :=
  agents.find? (fun a => a.id = agentId)

/-- `AgentRegistry.isOnline`: `false` for an unknown agent, otherwise
`Date.now() - agent.lastSeen < 5 * 60 * 1000`. -/
def isOnline (agents : Registry) (now : Int) (agentId : String) : Bool :=
  match getAgent agents agentId with
  | none => false
  | some agent => now - agent.lastSeen < 5 * 60 * 1000

/-- `AgentRegistry.getOnlineAgents`. -/
def getOnlineAgents (agents : Registry) (now : Int) : List AgentProfile :=
  agents.filter (fun a => isOnline agents now a.id)

/-- `Mission["status"]` from `mission-manager.ts` (`open` is a Lean keyword,
hence `open'`). -/
inductive MissionStatus
  | open'
  | in_progress
  | completed
  | failed
  | cancelled
deriving DecidableEq, Repr

/-- `MissionParticipant` from `mission-manager.ts`. -/
structure MissionParticipant where
  agentId : String
  role : String
  joinedAt : Int
  contribution : Option String
  rating : Option Int
deriving DecidableEq, Repr

/-- `MissionResult` from `mission-manager.ts` (`outputs` is an opaque bag
outside the core and omitted); `participantScores` is the record
`agentId → score` as an association list. -/
structure MissionResult where
  success : Bool
  summary : String
  participantScores : List (String × Int)
deriving DecidableEq, Repr

/-- `Mission` from `mission-manager.ts`. -/
structure Mission where
  id : String
  title : String
  description : String
  creatorAgentId : String
  requiredCapabilities : List String
  minTrustLevel : TrustLevel
  reward : Int
  status : MissionStatus
  participants : List MissionParticipant
  createdAt : Int
  deadline : Option Int
  completedAt : Option Int
  result : Option MissionResult
deriving DecidableEq, Repr

/-- Error kinds of the design document; each tags one `throw` site of
`mission-manager.ts`. -/
inductive MError
  | notFound
  | invalidState
  | trustError
  | duplicateParticipant
  | authorization
deriving DecidableEq, Repr

/-- `this.missions : Map<string, Mission>` in insertion order. -/
abbrev MissionStore := List (String × Mission)

/-- `MissionManager.createMission`: builds the mission (status `open`,
creator as sole participant with role `"creator"`) and registers it in the
store.  Note: no ledger access, hence no trust check, happens here. -/
def createMission (store : MissionStore) (creatorAgentId title description : String)
    (requiredCapabilities : List String) (minTrustLevel : TrustLevel)
    (reward : Int) (deadline : Option Int) (id : String) (now : Int) :
    Mission × MissionStore :=
  let mission : Mission :=
    { id, title, description, creatorAgentId, requiredCapabilities,
      minTrustLevel, reward, status := .open',
      participants := [{ agentId := creatorAgentId, role := "creator",
                         joinedAt := now, contribution := none, rating := none }],
      createdAt := now, deadline := deadline, completedAt := none, result := none }
  (mission, store ++ [(mission.id, mission)])

/-- `MissionManager.joinMission` on a mission already looked up in the store
(the lookup failure is the separate `notFound` throw).  Checks, in source
order: status `open`, `ledger.verifyTrust`, not already a participant. -/
def joinMission (db : Ledger) (mission : Mission) (agentId role : String)
    (now : Int) : Except MError Mission :=
  if mission.status ≠ .open' then .error .invalidState
  else if ¬ verifyTrust db agentId mission.minTrustLevel then .error .trustError
  else if mission.participants.any (fun p => p.agentId = agentId) then
    .error .duplicateParticipant
  else .ok { mission with
    participants := mission.participants ++
      [{ agentId, role, joinedAt := now, contribution := none, rating := none }] }

/-- `MissionManager.startMission` on a looked-up mission.  Checks, in source
order: caller is the creator, status `open`; then moves to `in_progress`. -/
def startMission (mission : Mission) (agentId : String) : Except MError Mission :=
  if mission.creatorAgentId ≠ agentId then .error .authorization
  else if mission.status ≠ .open' then .error .invalidState
  else .ok { mission with status := .in_progress }

/-- `result.participantScores[participant.agentId] || mission.reward`:
JS `||` falls back to `mission.reward` when the looked-up score is
`undefined` **or** `0` (both are falsy). -/
def participantAward (result : MissionResult) (reward : Int) (agentId : String) : Int :=
  match (result.participantScores.find? (fun e => e.1 = agentId)).map (fun e => e.2) with
  | some s => if s = 0 then reward else s
  | none => reward

/-- The reputation records one participant receives inside the
`if (result.success)` loop of `completeMission`: always a `completion`
event, plus a `quality` event of `rating * 20` when `participant.rating`
is truthy (set and non-zero). -/
def participantEvents (missionId : String) (result : MissionResult) (reward : Int)
    (completerId : String) (now : Int) (p : MissionParticipant) :
    List ReputationRecord :=
  let completion : ReputationRecord :=
    { id := "", agentId := p.agentId, missionId,
      score := participantAward result reward p.agentId,
      category := .completion, timestamp := now, verifiedBy := completerId }
  match p.rating with
  | some r =>
    if r = 0 then [completion]
    else [completion,
          { id := "", agentId := p.agentId, missionId, score := r * 20,
            category := .quality, timestamp := now, verifiedBy := completerId }]
  | none => [completion]

/-- `MissionManager.completeMission` on a looked-up mission.  Checks, in
source order: status `in_progress`, caller is a participant; then sets the
final status, stamps `completedAt`, stores the result, and on success
appends the reward events to the ledger (nothing is appended on failure). -/
def completeMission (db : Ledger) (mission : Mission) (agentId : String)
    (result : MissionResult) (now : Int) : Except MError (Mission × Ledger) :=
  if mission.status ≠ .in_progress then .error .invalidState
  else if ¬ mission.participants.any (fun p => p.agentId = agentId) then
    .error .authorization
  else
    let mission' := { mission with
      status := if result.success then .completed else .failed,
      completedAt := some now, result := some result }
    let events :=
      if result.success then
        (mission.participants.map
          (participantEvents mission.id result mission.reward agentId now)).flatten
      else []
    .ok (mission', db ++ events)

/-- One call against a single mission, for reasoning about operation
sequences (the ledger argument of a `join` trust check is the ambient one;
no mission operation's status behaviour depends on ledger writes). -/
inductive MissionOp
  | join (agentId role : String) (now : Int)
  | start (agentId : String)
  | complete (agentId : String) (result : MissionResult) (now : Int)

/-- Apply one operation to a mission; a thrown error leaves the mission
unchanged (every throw in the source happens before any mutation). -/
def applyOp (db : Ledger) (mission : Mission) (op : MissionOp) : Mission :=
  match op with
  | .join a r n =>
    match joinMission db mission a r n with
    | .ok m' => m'
    | .error _ => mission
  | .start a =>
    match startMission mission a with
    | .ok m' => m'
    | .error _ => mission
  | .complete a res n =>
    match completeMission db mission a res n with
    | .ok x => x.1
    | .error _ => mission

/-- Run a sequence of join/start/complete calls against one mission. -/
def runOps (db : Ledger) (mission : Mission) (ops : List MissionOp) : Mission :=
  ops.foldl (applyOp db) mission

/-- Position of a status along the forward lifecycle:
`open → in_progress → {completed, failed, cancelled}`. -/
def statusRank : MissionStatus → Nat
  | .open' => 0
  | .in_progress => 1
  | .completed => 2
  | .failed => 2
  | .cancelled => 2

/-- The terminal statuses of the design document's state machine. -/
def MissionStatus.isTerminal : MissionStatus → Bool
  | .completed => true
  | .failed => true
  | .cancelled => true
  | _ => false

/-- Ordinal rank of a trust tier on the fixed scale
unverified(0) < bronze(1) < silver(2) < gold(3) < diamond(4). -/
def TrustLevel.ordinal : TrustLevel → Nat
  | .unverified => 0
  | .bronze => 1
  | .silver => 2
  | .gold => 3
  | .diamond => 4

/-! ### Concrete fixtures used by witnesses and counterexamples -/

/-- An agent offering capability `"a"`. -/
def exAgentA : AgentProfile :=
  { id := "a1", name := "A", description := "", capabilities := ["a"],
    walletAddress := none, mcpEndpoint := none, createdAt := 0, lastSeen := 0 }

/-- A ledger where `exAgentA` has one completion event worth 2000. -/
def exLedgerA : Ledger :=
  [{ id := "e1", agentId := "a1", missionId := "m1", score := 2000,
     category := .completion, timestamp := 1, verifiedBy := "v" }]

/-- The reputation `exLedgerA` yields for `exAgentA`. -/
def exRepA : AgentReputation :=
  { agentId := "a1", totalScore := 2000, completedMissions := 1, avgQuality := 0,
    trustLevel := .unverified, lastActive := 1 }

/-- The discovery entry for `exAgentA` against required `{"a","b"}`. -/
def exResultA : AgentDiscoveryResult :=
  { agent := exAgentA, reputation := exRepA, matchScore := 1 }

/-- An agent offering only capability `"c"`. -/
def exAgentC : AgentProfile :=
  { id := "c1", name := "C", description := "", capabilities := ["c"],
    walletAddress := none, mcpEndpoint := none, createdAt := 0, lastSeen := 0 }

/-- A ledger where `exAgentC` has a completion event worth 5000. -/
def exLedgerC : Ledger :=
  [{ id := "e2", agentId := "c1", missionId := "m1", score := 5000,
     category := .completion, timestamp := 1, verifiedBy := "v" }]

/-- An agent with no capabilities, used with a negative-score ledger. -/
def exAgentZ : AgentProfile :=
  { id := "z1", name := "Z", description := "", capabilities := [],
    walletAddress := none, mcpEndpoint := none, createdAt := 0, lastSeen := 0 }

/-- A ledger where `exAgentZ` carries a single −2000 penalty event (negative
scores pass `recordReputation` unvalidated). -/
def exLedgerZ : Ledger :=
  [{ id := "e3", agentId := "z1", missionId := "m1", score := -2000,
     category := .completion, timestamp := 1, verifiedBy := "v" }]

/-- The zero-value reputation of `exAgentZ` under an empty ledger. -/
def exRepZeroZ : AgentReputation :=
  { agentId := "z1", totalScore := 0, completedMissions := 0, avgQuality := 0,
    trustLevel := .unverified, lastActive := 0 }

/-- The reputation `exLedgerZ` yields for `exAgentZ`: a negative total. -/
def exRepZNeg : AgentReputation :=
  { agentId := "z1", totalScore := -2000, completedMissions := 1,
    avgQuality := 0, trustLevel := .unverified, lastActive := 1 }

/-- The discovery entry for `exAgentZ` under the empty ledger with no
required capabilities. -/
def exResultZ0 : AgentDiscoveryResult :=
  { agent := exAgentZ, reputation := exRepZeroZ, matchScore := 1 }

/-- The discovery entry for `exAgentZ` under the −2000 ledger with no
required capabilities: the reputation "bonus" is −2 and the final match
score is −1. -/
def exResultZNeg : AgentDiscoveryResult :=
  { agent := exAgentZ, reputation := exRepZNeg, matchScore := -1 }

/-- An in-progress mission with creator `"alice"` and member `"bob"`,
reward 100. -/
def exProgressMission : Mission :=
  { id := "mx", title := "t", description := "d", creatorAgentId := "alice",
    requiredCapabilities := [], minTrustLevel := .unverified, reward := 100,
    status := .in_progress,
    participants :=
      [{ agentId := "alice", role := "creator", joinedAt := 0,
         contribution := none, rating := none },
       { agentId := "bob", role := "member", joinedAt := 1,
         contribution := none, rating := none }],
    createdAt := 0, deadline := none, completedAt := none, result := none }

/-- A successful result that explicitly awards `"bob"` a score of `0`. -/
def exResultZeroScore : MissionResult :=
  { success := true, summary := "s", participantScores := [("bob", 0)] }

/-- A completed (terminal) mission. -/
def exDoneMission : Mission :=
  { exProgressMission with
    id := "md"
    status := MissionStatus.completed
    completedAt := some 2 }

/-! ## Helper lemmas -/

/-- `indexOf` on the fixed five-element tier array computes the ordinal. -/
theorem trustLevels_indexOf (x : TrustLevel) :
    trustLevels.indexOf x = x.ordinal := by
  cases x <;> rfl

/-- `verifyTrust` unfolded to an ordinal comparison. -/
theorem verifyTrust_eq (db : Ledger) (agentId : String) (minLevel : TrustLevel) :
    verifyTrust db agentId minLevel =
      decide (minLevel.ordinal ≤ ((getAgentReputation db agentId).trustLevel).ordinal) := by
  simp [verifyTrust, trustLevels_indexOf]

/-! ## Claims -/

/-- **C3.** Trust level is a pure function of `(totalScore, distinct-mission
count)` evaluated top-down with the first matching tier winning: fewer than 1
mission gives unverified; score ≥ 1000 and missions ≥ 50 gives diamond;
score ≥ 500 and missions ≥ 25 gives gold; score ≥ 200 and missions ≥ 10
gives silver; score ≥ 50 and missions ≥ 3 gives bronze; otherwise
unverified.  Both the score and mission-count thresholds of a tier must hold
simultaneously, so an agent with arbitrarily high score but too few missions
for a tier never reaches that tier. -/
theorem calculateTrustLevel_spec :
    (∀ (score : Int) (missions : Nat),
      (missions < 1 → calculateTrustLevel score missions = .unverified) ∧
      (calculateTrustLevel score missions = .diamond ↔
        1000 ≤ score ∧ 50 ≤ missions) ∧
      (calculateTrustLevel score missions = .gold ↔
        500 ≤ score ∧ 25 ≤ missions ∧ ¬(1000 ≤ score ∧ 50 ≤ missions)) ∧
      (calculateTrustLevel score missions = .silver ↔
        200 ≤ score ∧ 10 ≤ missions ∧ ¬(500 ≤ score ∧ 25 ≤ missions)) ∧
      (calculateTrustLevel score missions = .bronze ↔
        50 ≤ score ∧ 3 ≤ missions ∧ ¬(200 ≤ score ∧ 10 ≤ missions)) ∧
      (missions < 50 → calculateTrustLevel score missions ≠ .diamond) ∧
      (missions < 25 → calculateTrustLevel score missions ≠ .gold) ∧
      (missions < 10 → calculateTrustLevel score missions ≠ .silver) ∧
      (missions < 3 → calculateTrustLevel score missions ≠ .bronze)) ∧
    ∀ (db : Ledger) (agentId : String),
      (getAgentReputation db agentId).trustLevel =
        calculateTrustLevel (getAgentReputation db agentId).totalScore
          (getAgentReputation db agentId).completedMissions := by
  constructor
  · intro score missions
    refine ⟨?_, ?_, ?_, ?_, ?_, ?_, ?_, ?_, ?_⟩ <;>
      · unfold calculateTrustLevel
        split_ifs <;> simp_all <;> omega
  · intro db agentId
    by_cases h : (db.filter (fun r => decide (r.agentId = agentId))).isEmpty <;>
      simp [getAgentReputation, h, calculateTrustLevel]

/-- Witness for C3: an agent with enormous score but too few missions stays
below the tier whose mission threshold it misses. -/
theorem calculateTrustLevel_spec_witness :
    calculateTrustLevel 5000 2 ≠ .bronze ∧
    calculateTrustLevel 5000 49 ≠ .diamond ∧
    calculateTrustLevel 5000 0 = .unverified := by
  refine ⟨?_, ?_, ?_⟩
  · exact (calculateTrustLevel_spec.1 5000 2).2.2.2.2.2.2.2.2 (by decide)
  · exact (calculateTrustLevel_spec.1 5000 49).2.2.2.2.2.1 (by decide)
  · exact (calculateTrustLevel_spec.1 5000 0).1 (by decide)

/-- **C5.** `verifyTrust(agentId, minLevel)` returns true iff the ordinal
rank of the agent's current trust level is ≥ the ordinal rank of `minLevel`
on the fixed scale unverified(0) < bronze(1) < silver(2) < gold(3) <
diamond(4), for every ledger state and every pair of tiers. -/
theorem verifyTrust_iff_ordinal
    (db : Ledger) (agentId : String) (minLevel : TrustLevel) :
    verifyTrust db agentId minLevel = true ↔
      minLevel.ordinal ≤ ((getAgentReputation db agentId).trustLevel).ordinal := by
  rw [verifyTrust_eq]
  exact decide_eq_true_iff

/-- **C6.** For an agent with zero recorded events, `getAgentReputation`
returns the zero-value record (`totalScore = 0`, `completedMissions = 0`,
`avgQuality = 0`, `trustLevel = "unverified"`, `lastActive = 0`); being a
total function, it never fails or throws on an unknown agent. -/
theorem getAgentReputation_no_events
    (db : Ledger) (agentId : String)
    (h : ∀ r ∈ db, r.agentId ≠ agentId) :
    getAgentReputation db agentId =
      { agentId, totalScore := 0, completedMissions := 0, avgQuality := 0,
        trustLevel := .unverified, lastActive := 0 } := by
  have hfil : db.filter (fun r => r.agentId = agentId) = [] := by
    simp only [List.filter_eq_nil_iff]
    intro r hr
    simpa using h r hr
  unfold getAgentReputation
  rw [hfil]
  rfl

/-- Witness for C6: a ledger holding an event for a different agent yields
the zero-value record for `"alice"`. -/
theorem getAgentReputation_no_events_witness :
    getAgentReputation
        [{ id := "e1", agentId := "bob", missionId := "m1", score := 100,
           category := .completion, timestamp := 7, verifiedBy := "bob" }]
        "alice" =
      { agentId := "alice", totalScore := 0, completedMissions := 0,
        avgQuality := 0, trustLevel := .unverified, lastActive := 0 } :=
  getAgentReputation_no_events _ "alice" (by decide)

/-- **C7.** The trust-level function is monotone: componentwise increasing
`(totalScore, completedMissions)` can only move the derived tier up the
ordinal scale or leave it unchanged, never down. -/
theorem calculateTrustLevel_monotone
    (s₁ s₂ : Int) (m₁ m₂ : Nat) (hs : s₁ ≤ s₂) (hm : m₁ ≤ m₂) :
    (calculateTrustLevel s₁ m₁).ordinal ≤ (calculateTrustLevel s₂ m₂).ordinal := by
  unfold calculateTrustLevel
  split_ifs <;> simp_all [TrustLevel.ordinal] <;> omega

/-- Witness for C7: raising 100/5 to 600/30 moves the tier from bronze up to
gold. -/
theorem calculateTrustLevel_monotone_witness :
    (calculateTrustLevel 100 5).ordinal ≤ (calculateTrustLevel 600 30).ordinal :=
  calculateTrustLevel_monotone 100 600 5 30 (by decide) (by decide)

/-- Inversion for a successful `joinMission`: the status is untouched. -/
theorem joinMission_ok_status {db : Ledger} {m : Mission} {a r : String}
    {n : Int} {m' : Mission} (h : joinMission db m a r n = .ok m') :
    m'.status = m.status := by
  unfold joinMission at h
  split_ifs at h
  · injection h with h
    subst h
    rfl

/-- Inversion for a successful `startMission`: it was `open`, the caller is
the creator, and the status becomes `in_progress`. -/
theorem startMission_ok {m : Mission} {a : String} {m' : Mission}
    (h : startMission m a = .ok m') :
    m.status = .open' ∧ m'.status = .in_progress ∧ m.creatorAgentId = a := by
  unfold startMission at h
  split_ifs at h with h1 h2
  injection h with h
  subst h
  exact ⟨not_not.mp h2, rfl, not_not.mp h1⟩

/-- Inversion for a successful `completeMission`: it was `in_progress`, the
caller is a participant, the status becomes `completed`/`failed` with
`success`, and the ledger grows by exactly the per-participant reward
events (none at all on failure). -/
theorem completeMission_ok {db : Ledger} {m : Mission} {a : String}
    {res : MissionResult} {n : Int} {m' : Mission} {db' : Ledger}
    (h : completeMission db m a res n = .ok (m', db')) :
    m.status = .in_progress ∧
    m.participants.any (fun p => p.agentId = a) = true ∧
    m' = { m with
           status := (if res.success then .completed else .failed),
           completedAt := some n, result := some res } ∧
    db' = db ++ (if res.success then
        (m.participants.map (participantEvents m.id res m.reward a n)).flatten
      else []) := by
  unfold completeMission at h
  split_ifs at h with h1 h2 h3
  · injection h with h
    rw [Prod.ext_iff] at h
    obtain ⟨h4, h5⟩ := h
    subst h4
    subst h5
    refine ⟨not_not.mp h1, h2, ?_, ?_⟩ <;> simp [h3]
  · injection h with h
    rw [Prod.ext_iff] at h
    obtain ⟨h4, h5⟩ := h
    subst h4
    subst h5
    refine ⟨not_not.mp h1, h2, ?_, ?_⟩ <;> simp [h3]

/-- Each single operation either leaves the status alone, moves `open` to
`in_progress` (`start`), or moves `in_progress` to `completed`/`failed`
(`complete`). -/
theorem applyOp_transitions (db : Ledger) (m : Mission) (op : MissionOp) :
    (applyOp db m op).status = m.status ∨
    (m.status = .open' ∧ (applyOp db m op).status = .in_progress) ∨
    (m.status = .in_progress ∧
      ((applyOp db m op).status = .completed ∨ (applyOp db m op).status = .failed)) := by
  cases op with
  | join a r n =>
    cases hj : joinMission db m a r n with
    | ok m' =>
      left
      simpa [applyOp, hj] using joinMission_ok_status hj
    | error e => left; simp [applyOp, hj]
  | start a =>
    cases hs : startMission m a with
    | ok m' =>
      obtain ⟨hop, hst, _⟩ := startMission_ok hs
      right; left
      simp [applyOp, hs, hop, hst]
    | error e => left; simp [applyOp, hs]
  | complete a res n =>
    cases hc : completeMission db m a res n with
    | ok x =>
      obtain ⟨m', db'⟩ := x
      obtain ⟨hip, _, hm', _⟩ := completeMission_ok hc
      right; right
      refine ⟨hip, ?_⟩
      rw [hm'] at hc
      cases hsucc : res.success <;> rw [hsucc] at hc <;> simp [applyOp, hc]
    | error e => left; simp [applyOp, hc]

/-- On a terminal mission every join/start/complete call throws before any
mutation, so the mission is unchanged. -/
theorem applyOp_terminal (db : Ledger) (m : Mission) (op : MissionOp)
    (h : m.status.isTerminal = true) : applyOp db m op = m := by
  have hno : m.status ≠ .open' ∧ m.status ≠ .in_progress := by
    cases hst : m.status <;> simp_all [MissionStatus.isTerminal]
  cases op with
  | join a r n =>
    have hj : joinMission db m a r n = .error .invalidState := by
      unfold joinMission
      rw [if_pos hno.1]
    simp [applyOp, hj]
  | start a =>
    cases hs : startMission m a with
    | ok m' => exact absurd (startMission_ok hs).1 hno.1
    | error e => simp [applyOp, hs]
  | complete a res n =>
    have hc : completeMission db m a res n = .error .invalidState := by
      unfold completeMission
      rw [if_pos hno.2]
    simp [applyOp, hc]

/-- **C4.** A mission's status only moves forward along
`open → in_progress → completed|failed` (or to `cancelled`); no operation
sequence moves it backward; once a mission is terminal no sequence of
join/start/complete calls changes it; `join` fails with `InvalidStateError`
whenever status ≠ open, `start` fails whenever status ≠ open, and `complete`
fails with `InvalidStateError` whenever status ≠ in_progress. -/
theorem mission_status_forward (db : Ledger) (m : Mission) :
    (∀ op, statusRank m.status ≤ statusRank (applyOp db m op).status) ∧
    (∀ op, (applyOp db m op).status = m.status ∨
      (m.status = .open' ∧ (applyOp db m op).status = .in_progress) ∨
      (m.status = .in_progress ∧
        ((applyOp db m op).status = .completed ∨ (applyOp db m op).status = .failed))) ∧
    (m.status ≠ .open' → ∀ a r n, joinMission db m a r n = .error .invalidState) ∧
    (m.status ≠ .open' → ∀ a, ∃ e, startMission m a = .error e) ∧
    (m.status ≠ .in_progress → ∀ a res n,
      completeMission db m a res n = .error .invalidState) ∧
    (m.status.isTerminal = true → ∀ ops, runOps db m ops = m) := by
  refine ⟨?_, applyOp_transitions db m, ?_, ?_, ?_, ?_⟩
  · intro op
    rcases applyOp_transitions db m op with h | ⟨h1, h2⟩ | ⟨h1, h2 | h2⟩
    · simp [h]
    · simp [h1, h2, statusRank]
    · simp [h1, h2, statusRank]
    · simp [h1, h2, statusRank]
  · intro h a r n
    unfold joinMission
    rw [if_pos h]
  · intro h a
    cases hs : startMission m a with
    | ok m' => exact absurd (startMission_ok hs).1 h
    | error e => exact ⟨e, rfl⟩
  · intro h a res n
    unfold completeMission
    rw [if_pos h]
  · intro h ops
    induction ops with
    | nil => rfl
    | cons op ops ih =>
      show runOps db (applyOp db m op) ops = m
      rw [applyOp_terminal db m op h]
      exact ih

/-- Witness for C4: on the completed fixture mission, join and complete
throw `InvalidStateError`, start throws, and a join-start-complete sequence
leaves the mission untouched. -/
theorem mission_status_forward_witness :
    joinMission [] exDoneMission "bob" "member" 3 = .error .invalidState ∧
    (∃ e, startMission exDoneMission "alice" = .error e) ∧
    completeMission [] exDoneMission "alice" exResultZeroScore 3 =
      .error .invalidState ∧
    runOps [] exDoneMission
      [.join "bob" "member" 3, .start "alice",
       .complete "alice" exResultZeroScore 4] = exDoneMission := by
  refine ⟨?_, ?_, ?_, ?_⟩
  · exact (mission_status_forward [] exDoneMission).2.2.1 (by decide) "bob" "member" 3
  · exact (mission_status_forward [] exDoneMission).2.2.2.1 (by decide) "alice"
  · exact (mission_status_forward [] exDoneMission).2.2.2.2.1 (by decide) "alice"
      exResultZeroScore 3
  · exact (mission_status_forward [] exDoneMission).2.2.2.2.2 (by decide) _

/-- **C10.** For an unregistered agent `isOnline` returns `false` (and,
being total, never throws); for a registered agent it returns `true` iff
`now − lastSeen < 5` minutes; consequently `getOnlineAgents` only ever
returns registered agents. -/
theorem isOnline_spec (agents : Registry) (now : Int) :
    (∀ agentId, getAgent agents agentId = none →
      isOnline agents now agentId = false) ∧
    (∀ agentId a, getAgent agents agentId = some a →
      (isOnline agents now agentId = true ↔ now - a.lastSeen < 5 * 60 * 1000)) ∧
    (∀ a ∈ getOnlineAgents agents now, (getAgent agents a.id).isSome = true) := by
  refine ⟨?_, ?_, ?_⟩
  · intro agentId h
    unfold isOnline
    rw [h]
  · intro agentId a h
    unfold isOnline
    rw [h]
    simp
  · intro a ha
    have hmem : a ∈ agents := (List.mem_filter.mp ha).1
    unfold getAgent
    rw [List.find?_isSome]
    exact ⟨a, hmem, by simp⟩

/-- Witness for C10: an empty registry reports `"x"` offline; a registered
agent is online iff seen within the 5-minute window; the online list of a
one-agent registry only contains that registered agent. -/
theorem isOnline_spec_witness :
    isOnline [] 0 "x" = false ∧
    (isOnline [exAgentA] 100 "a1" = true ↔ (100 : Int) - 0 < 5 * 60 * 1000) ∧
    (getAgent [exAgentA] exAgentA.id).isSome = true := by
  refine ⟨?_, ?_, ?_⟩
  · exact (isOnline_spec [] 0).1 "x" (by decide)
  · exact (isOnline_spec [exAgentA] 100).2.1 "a1" exAgentA (by decide)
  · exact (isOnline_spec [exAgentA] 100).2.2 exAgentA (by decide)

/-- **C9 (amended).** Mission creation is *not* trust-gated: `createMission`
never consults the ledger, always succeeds, and registers the new mission in
state `open` with the creator as sole participant, whatever the creator's
trust tier; only *joining* is trust-gated, failing with `TrustError` when
`verifyTrust` rejects the joining agent. -/
theorem createMission_not_gated :
    (∀ (store : MissionStore) (creator title desc : String)
        (reqCaps : List String) (minTL : TrustLevel) (reward : Int)
        (deadline : Option Int) (id : String) (now : Int),
      (createMission store creator title desc reqCaps minTL reward deadline
          id now).1.status = .open' ∧
      (createMission store creator title desc reqCaps minTL reward deadline
          id now).1.minTrustLevel = minTL ∧
      (createMission store creator title desc reqCaps minTL reward deadline
          id now).1.participants =
        [{ agentId := creator, role := "creator", joinedAt := now,
           contribution := none, rating := none }] ∧
      (createMission store creator title desc reqCaps minTL reward deadline
          id now).2 =
        store ++ [(id, (createMission store creator title desc reqCaps minTL
          reward deadline id now).1)]) ∧
    ∀ (db : Ledger) (m : Mission) (a role : String) (now : Int),
      m.status = .open' → verifyTrust db a m.minTrustLevel = false →
      joinMission db m a role now = .error .trustError := by
  constructor
  · intro store creator title desc reqCaps minTL reward deadline id now
    exact ⟨rfl, rfl, rfl, rfl⟩
  · intro db m a role now hst htr
    unfold joinMission
    rw [if_neg (by simp [hst]), if_pos (by simp [htr])]

/-- Counterexample for C9 as stated: `"carol"` is unverified (empty ledger)
and thus below a `diamond` minimum trust level, yet her `createMission` call
is not rejected — the mission is registered, open, with her as creator. -/
theorem createMission_not_gated_counterexample :
    verifyTrust [] "carol" .diamond = false ∧
    (createMission [] "carol" "t" "d" [] .diamond 100 none "m9" 0).1.status
      = .open' ∧
    (createMission [] "carol" "t" "d" [] .diamond 100 none "m9" 0).2 =
      [("m9", (createMission [] "carol" "t" "d" [] .diamond 100 none "m9" 0).1)] := by
  refine ⟨?_, rfl, rfl⟩
  rfl

/-- Witness for C9 (amended): an unverified creator registers a
`diamond`-gated mission, while the same unverified agent cannot join it. -/
theorem createMission_not_gated_witness :
    (createMission [] "carol" "t" "d" [] .diamond 100 none "m9" 0).1.status
      = .open' ∧
    joinMission []
      (createMission [] "carol" "t" "d" [] .diamond 100 none "m9" 0).1
      "dave" "member" 1 = .error .trustError := by
  constructor
  · exact (createMission_not_gated.1 [] "carol" "t" "d" [] .diamond 100
      none "m9" 0).1
  · exact createMission_not_gated.2 []
      (createMission [] "carol" "t" "d" [] .diamond 100 none "m9" 0).1
      "dave" "member" 1 (by rfl) (by rfl)

/-- `participantEvents` split into head (completion) and optional quality
tail. -/
theorem participantEvents_eq (missionId : String) (res : MissionResult)
    (reward : Int) (caller : String) (now : Int) (p : MissionParticipant) :
    participantEvents missionId res reward caller now p =
      { id := "", agentId := p.agentId, missionId,
        score := participantAward res reward p.agentId,
        category := .completion, timestamp := now, verifiedBy := caller } ::
      (match p.rating with
       | some r =>
         if r = 0 then ([] : List ReputationRecord)
         else [{ id := "", agentId := p.agentId, missionId, score := r * 20,
                 category := .quality, timestamp := now, verifiedBy := caller }]
       | none => ([] : List ReputationRecord)) := by
  unfold participantEvents
  cases p.rating with
  | none => rfl
  | some r => by_cases hr : r = 0 <;> simp [hr]

/-- **C2 (amended).** Completing an `in_progress` mission as a participant
succeeds, and if and only if `result.success` one `"completion"` ledger
event is written for every participant — scoring the participant's
explicitly listed score when that is present *and non-zero* (JS `||`), and
`mission.reward` when it is absent or `0` — verified by the calling agent,
plus one `"quality"` event of `rating * 20` for every participant with a
(non-zero) recorded peer rating; on `success = false` no events at all are
written. -/
theorem completeMission_reward_events
    (db : Ledger) (m : Mission) (agentId : String) (res : MissionResult)
    (now : Int)
    (hst : m.status = .in_progress)
    (hpart : m.participants.any (fun p => p.agentId = agentId) = true) :
    ∃ m' db', completeMission db m agentId res now = .ok (m', db') ∧
      m'.status = (if res.success then .completed else .failed) ∧
      (res.success = false → db' = db) ∧
      (res.success = true → db' = db ++ (m.participants.map (fun p =>
        { id := "", agentId := p.agentId, missionId := m.id,
          score := participantAward res m.reward p.agentId,
          category := .completion, timestamp := now, verifiedBy := agentId } ::
        (match p.rating with
         | some r =>
           if r = 0 then ([] : List ReputationRecord)
           else [{ id := "", agentId := p.agentId, missionId := m.id,
                   score := r * 20, category := .quality, timestamp := now,
                   verifiedBy := agentId }]
         | none => ([] : List ReputationRecord)))).flatten) := by
  refine ⟨{ m with
            status := (if res.success then .completed else .failed),
            completedAt := some now, result := some res },
          db ++ (if res.success then
            (m.participants.map
              (participantEvents m.id res m.reward agentId now)).flatten
          else []), ?_, ?_, ?_, ?_⟩
  · unfold completeMission
    rw [if_neg (by simp [hst]), if_neg (by simp [hpart])]
  · simp
  · intro hf
    simp [hf]
  · intro hs
    simp only [hs, if_pos]
    congr 1
    congr 1
    exact List.map_congr_left
      (fun p _ => participantEvents_eq m.id res m.reward agentId now p)

/-- Witness for C2 (amended): completing the fixture mission with a
successful result that lists bob at 0 produces completion events for both
participants. -/
theorem completeMission_reward_events_witness :
    ∃ m' db', completeMission [] exProgressMission "alice" exResultZeroScore 5
        = .ok (m', db') ∧
      m'.status = (if exResultZeroScore.success then .completed else .failed) ∧
      (exResultZeroScore.success = false → db' = []) ∧
      (exResultZeroScore.success = true →
        db' = [] ++ (exProgressMission.participants.map (fun p =>
        { id := "", agentId := p.agentId, missionId := exProgressMission.id,
          score := participantAward exResultZeroScore exProgressMission.reward
            p.agentId,
          category := .completion, timestamp := 5, verifiedBy := "alice" } ::
        (match p.rating with
         | some r =>
           if r = 0 then ([] : List ReputationRecord)
           else [{ id := "", agentId := p.agentId,
                   missionId := exProgressMission.id, score := r * 20,
                   category := .quality, timestamp := 5,
                   verifiedBy := "alice" }]
         | none => ([] : List ReputationRecord)))).flatten) :=
  completeMission_reward_events [] exProgressMission "alice" exResultZeroScore
    5 (by rfl) (by rfl)

/-- Counterexample for C2 as stated: `exResultZeroScore` explicitly lists
`"bob"` with score `0`, yet bob's completion event carries
`mission.reward = 100`, not `0` — the code's `||` fallback treats the listed
`0` like an absent entry, contradicting the claim's `??` semantics. -/
theorem completeMission_zero_score_counterexample :
    (exResultZeroScore.participantScores.find? (fun e => e.1 = "bob")).map
        (fun e => e.2) = some 0 ∧
    completeMission [] exProgressMission "alice" exResultZeroScore 5 =
      .ok ({ exProgressMission with
             status := MissionStatus.completed
             completedAt := some 5
             result := some exResultZeroScore },
           [{ id := "", agentId := "alice", missionId := "mx", score := 100,
              category := .completion, timestamp := 5, verifiedBy := "alice" },
            { id := "", agentId := "bob", missionId := "mx", score := 100,
              category := .completion, timestamp := 5, verifiedBy := "alice" }]) ∧
    (100 : Int) ≠ 0 := by
  refine ⟨rfl, ?_, by decide⟩
  rfl

/-- Every discovery result comes from some registered agent's loop entry
(sorting permutes and `take` only drops). -/
theorem mem_discoverAgents {agents : Registry} {db : Ledger}
    {req : Option (List String)} {minTL : Option TrustLevel} {maxR : Nat}
    {r : AgentDiscoveryResult}
    (h : r ∈ discoverAgents agents db req minTL maxR) :
    ∃ a ∈ agents, discoverAgentEntry db req minTL a = some r := by
  unfold discoverAgents at h
  have h1 := List.Sublist.mem h (List.take_sublist _ _)
  have h2 := (List.perm_insertionSort
    (fun a b : AgentDiscoveryResult => b.matchScore ≤ a.matchScore)
    (agents.filterMap (discoverAgentEntry db req minTL))).mem_iff.mp h1
  exact List.mem_filterMap.mp h2

/-- Inversion of a produced loop entry: the result packages the agent, its
freshly computed reputation, and `min 1 (base + repBonus)`. -/
theorem discoverAgentEntry_some {db : Ledger} {req : Option (List String)}
    {minTL : Option TrustLevel} {a : AgentProfile} {r : AgentDiscoveryResult}
    (h : discoverAgentEntry db req minTL a = some r) :
    ∃ base, capabilityBase req a = some base ∧ r.agent = a ∧
      r.reputation = getAgentReputation db a.id ∧
      r.matchScore = min 1 (base + reputationBonus (getAgentReputation db a.id)) := by
  simp only [discoverAgentEntry] at h
  by_cases ht : discoverCheckTrust minTL (getAgentReputation db a.id) = true
  · rw [if_pos ht] at h
    cases hbase : capabilityBase req a with
    | none => rw [hbase] at h; cases h
    | some base =>
      rw [hbase] at h
      injection h with h
      subst h
      exact ⟨base, rfl, rfl, rfl, rfl⟩
  · rw [if_neg ht] at h
    cases h

/-- The matched-capabilities filter is exactly list intersection. -/
theorem filter_contains_eq_inter (req caps : List String) :
    req.filter (fun c => caps.contains c) = req.inter caps := rfl

/-- Inversion of `capabilityBase` for a non-empty required list: the base is
the intersection ratio and it is non-zero. -/
theorem capabilityBase_some_of_req {req : List String} {a : AgentProfile}
    {base : Rat} (hreq : req ≠ []) (h : capabilityBase (some req) a = some base) :
    base = ((req.inter a.capabilities).length : Rat) / (req.length : Rat) ∧
    base ≠ 0 := by
  have hlen : 0 < req.length := List.length_pos.mpr hreq
  simp only [capabilityBase] at h
  rw [if_pos hlen] at h
  by_cases hz : ((req.filter (fun cap => a.capabilities.contains cap)).length : Rat) /
      (req.length : Rat) = 0
  · rw [if_pos hz] at h
    cases h
  · rw [if_neg hz] at h
    injection h with h
    subst h
    rw [filter_contains_eq_inter] at hz ⊢
    exact ⟨rfl, hz⟩

/-- A quotient of natural-number casts is non-negative in `ℚ`. -/
theorem natCast_div_nonneg (m n : Nat) : (0 : Rat) ≤ (m : Rat) / (n : Rat) := by
  positivity

/-- Every produced base score is non-negative. -/
theorem capabilityBase_nonneg {req : Option (List String)} {a : AgentProfile}
    {base : Rat} (h : capabilityBase req a = some base) : 0 ≤ base := by
  cases req with
  | none =>
    simp only [capabilityBase] at h
    injection h with h
    subst h
    norm_num
  | some l =>
    simp only [capabilityBase] at h
    split_ifs at h with h1 h2
    · injection h with h
      subst h
      exact natCast_div_nonneg _ _
    · injection h with h
      subst h
      norm_num

/-- Evaluation of the capability base for `exAgentA` against `{"a","b"}`. -/
theorem capabilityBase_exA :
    capabilityBase (some ["a", "b"]) exAgentA = some (1 / 2) := by
  have hfil : (["a", "b"] : List String).filter
      (fun c => exAgentA.capabilities.contains c) = ["a"] := rfl
  simp only [capabilityBase, hfil]
  norm_num

/-- Evaluation of the discovery entry for `exAgentA`. -/
theorem discoverAgentEntry_exA :
    discoverAgentEntry exLedgerA (some ["a", "b"]) none exAgentA =
      some exResultA := by
  have hrep : getAgentReputation exLedgerA exAgentA.id = exRepA := rfl
  simp only [discoverAgentEntry, hrep, discoverCheckTrust, if_pos,
    capabilityBase_exA]
  have hms : min (1 : Rat) (1 / 2 + reputationBonus exRepA) = 1 := by
    unfold reputationBonus
    rw [show exRepA.totalScore = 2000 from rfl]
    norm_num [min_def]
  rw [hms]
  rfl

/-- Evaluation of the whole discovery call on the `exAgentA` registry. -/
theorem discoverAgents_exA_eval :
    discoverAgents [exAgentA] exLedgerA (some ["a", "b"]) none 10 =
      [exResultA] := by
  unfold discoverAgents
  rw [show ([exAgentA] : Registry).filterMap
      (discoverAgentEntry exLedgerA (some ["a", "b"]) none) = [exResultA] by
    rw [List.filterMap_cons, discoverAgentEntry_exA]
    rfl]
  rfl

/-- Evaluation: `exAgentC` (only `"c"`) is dropped for required `{"a","b"}`
despite a 5000 total score. -/
theorem discoverAgents_exC_eval :
    discoverAgents [exAgentC] exLedgerC (some ["a", "b"]) none 10 = [] := by
  have hbase : capabilityBase (some ["a", "b"]) exAgentC = none := by
    have hfil : (["a", "b"] : List String).filter
        (fun c => exAgentC.capabilities.contains c) = [] := rfl
    simp only [capabilityBase, hfil]
    norm_num
  have hentry : discoverAgentEntry exLedgerC (some ["a", "b"]) none exAgentC
      = none := by
    simp only [discoverAgentEntry, discoverCheckTrust, if_pos, hbase]
  unfold discoverAgents
  rw [show ([exAgentC] : Registry).filterMap
      (discoverAgentEntry exLedgerC (some ["a", "b"]) none) = [] by
    rw [List.filterMap_cons, hentry]
    rfl]
  rfl

/-- Evaluation of discovery for `exAgentZ` on the empty ledger. -/
theorem discoverAgents_exZ0_eval :
    discoverAgents [exAgentZ] [] none none 10 = [exResultZ0] := by
  have hrep : getAgentReputation [] exAgentZ.id = exRepZeroZ := rfl
  have hentry : discoverAgentEntry [] none none exAgentZ = some exResultZ0 := by
    simp only [discoverAgentEntry, hrep, discoverCheckTrust, if_pos,
      capabilityBase]
    have hms : min (1 : Rat) (1 + reputationBonus exRepZeroZ) = 1 := by
      unfold reputationBonus
      rw [show exRepZeroZ.totalScore = 0 from rfl]
      norm_num [min_def]
    rw [hms]
    rfl
  unfold discoverAgents
  rw [show ([exAgentZ] : Registry).filterMap
      (discoverAgentEntry [] none none) = [exResultZ0] by
    rw [List.filterMap_cons, hentry]
    rfl]
  rfl

/-- Evaluation of discovery for `exAgentZ` on the −2000 ledger: the match
score comes out at −1. -/
theorem discoverAgents_exZneg_eval :
    discoverAgents [exAgentZ] exLedgerZ none none 10 = [exResultZNeg] := by
  have hrep : getAgentReputation exLedgerZ exAgentZ.id = exRepZNeg := rfl
  have hentry : discoverAgentEntry exLedgerZ none none exAgentZ =
      some exResultZNeg := by
    simp only [discoverAgentEntry, hrep, discoverCheckTrust, if_pos,
      capabilityBase]
    have hms : min (1 : Rat) (1 + reputationBonus exRepZNeg) = -1 := by
      unfold reputationBonus
      rw [show exRepZNeg.totalScore = -2000 from rfl]
      norm_num [min_def]
    rw [hms]
    rfl
  unfold discoverAgents
  rw [show ([exAgentZ] : Registry).filterMap
      (discoverAgentEntry exLedgerZ none none) = [exResultZNeg] by
    rw [List.filterMap_cons, hentry]
    rfl]
  rfl

/-- **C1.** With a non-empty required-capabilities list, every returned
agent's base match score is `|required ∩ capabilities| / |required|`; an
agent whose base score is exactly 0 never appears in the results, whatever
its reputation; every returned agent's final `matchScore` is
`min(1, base + min(totalScore/1000, 0.5))`; with no required capabilities
the base score is 1.  Concretely: with required `{"a","b"}`, an agent with
capabilities `{"a"}` and `totalScore` 2000 scores exactly 1, while an agent
with only `{"c"}` is excluded regardless of reputation. -/
theorem discoverAgents_capability_scoring :
    (∀ (agents : Registry) (db : Ledger) (req : List String)
        (minTL : Option TrustLevel) (maxR : Nat), req ≠ [] →
      ∀ r ∈ discoverAgents agents db (some req) minTL maxR,
        ((req.inter r.agent.capabilities).length : Rat) /
            (req.length : Rat) ≠ 0 ∧
        r.matchScore = min 1
          (((req.inter r.agent.capabilities).length : Rat) /
              (req.length : Rat) +
            min (((getAgentReputation db r.agent.id).totalScore : Rat) / 1000)
              (1 / 2))) ∧
    (∀ (agents : Registry) (db : Ledger) (minTL : Option TrustLevel)
        (maxR : Nat),
      ∀ r ∈ discoverAgents agents db none minTL maxR,
        r.matchScore = min 1
          (1 + min (((getAgentReputation db r.agent.id).totalScore : Rat) / 1000)
            (1 / 2))) ∧
    (discoverAgents [exAgentA] exLedgerA (some ["a", "b"]) none 10).map
        (fun r => r.matchScore) = [1] ∧
    discoverAgents [exAgentC] exLedgerC (some ["a", "b"]) none 10 = [] := by
  refine ⟨?_, ?_, ?_, discoverAgents_exC_eval⟩
  · intro agents db req minTL maxR hreq r hr
    obtain ⟨a, _, hentry⟩ := mem_discoverAgents hr
    obtain ⟨base, hbase, hagent, _, hms⟩ := discoverAgentEntry_some hentry
    obtain ⟨hbase_eq, hbase_ne⟩ := capabilityBase_some_of_req hreq hbase
    rw [hagent]
    constructor
    · rw [← hbase_eq]
      exact hbase_ne
    · rw [hms, ← hbase_eq]
      rfl
  · intro agents db minTL maxR r hr
    obtain ⟨a, _, hentry⟩ := mem_discoverAgents hr
    obtain ⟨base, hbase, hagent, _, hms⟩ := discoverAgentEntry_some hentry
    have hb1 : base = 1 := by
      simp only [capabilityBase] at hbase
      injection hbase with hbase
      exact hbase.symm
    rw [hagent, hms, hb1]
    rfl
  · rw [discoverAgents_exA_eval]
    rfl

/-- Witness for C1: the first conjunct applied to the `exAgentA` fixture
call. -/
theorem discoverAgents_capability_scoring_witness :
    (((["a", "b"] : List String).inter exResultA.agent.capabilities).length : Rat) /
        ((["a", "b"] : List String).length : Rat) ≠ 0 ∧
    exResultA.matchScore = min 1
      ((((["a", "b"] : List String).inter exResultA.agent.capabilities).length : Rat) /
          ((["a", "b"] : List String).length : Rat) +
        min (((getAgentReputation exLedgerA exResultA.agent.id).totalScore : Rat)
            / 1000) (1 / 2)) :=
  discoverAgents_capability_scoring.1 [exAgentA] exLedgerA ["a", "b"] none 10
    (by decide) exResultA
    (by rw [discoverAgents_exA_eval]; exact List.mem_singleton.mpr rfl)

/-- **C8 (amended).** Every returned `matchScore` is at most 1, and is
non-negative whenever the agent's `totalScore` is non-negative; a negative
`totalScore` (negative event scores pass `recordReputation` unvalidated) can
push the match score below 0, so the unconditional `[0,1]` claim fails. -/
theorem discoverAgents_score_bounds
    (agents : Registry) (db : Ledger) (req : Option (List String))
    (minTL : Option TrustLevel) (maxR : Nat) :
    ∀ r ∈ discoverAgents agents db req minTL maxR,
      r.matchScore ≤ 1 ∧
      (0 ≤ (getAgentReputation db r.agent.id).totalScore →
        0 ≤ r.matchScore) := by
  intro r hr
  obtain ⟨a, _, hentry⟩ := mem_discoverAgents hr
  obtain ⟨base, hbase, hagent, _, hms⟩ := discoverAgentEntry_some hentry
  constructor
  · rw [hms]
    exact min_le_left _ _
  · intro hts
    rw [hagent] at hts
    rw [hms]
    have hb0 : 0 ≤ base := capabilityBase_nonneg hbase
    have hbonus : 0 ≤ reputationBonus (getAgentReputation db a.id) := by
      unfold reputationBonus
      refine le_min (div_nonneg ?_ (by norm_num)) (by norm_num)
      exact_mod_cast hts
    exact le_min (by norm_num) (add_nonneg hb0 hbonus)

/-- Witness for C8 (amended): the fixture result of `exAgentZ` on the empty
ledger. -/
theorem discoverAgents_score_bounds_witness :
    exResultZ0.matchScore ≤ 1 ∧
    (0 ≤ (getAgentReputation [] exResultZ0.agent.id).totalScore →
      0 ≤ exResultZ0.matchScore) :=
  discoverAgents_score_bounds [exAgentZ] [] none none 10 exResultZ0
    (by rw [discoverAgents_exZ0_eval]; exact List.mem_singleton.mpr rfl)

/-- Counterexample for C8 as stated: with a single −2000 event on the
ledger, discovery returns `exAgentZ` with `matchScore = −1`, outside
`[0, 1]`. -/
theorem discoverAgents_negative_matchScore_counterexample :
    (discoverAgents [exAgentZ] exLedgerZ none none 10).map
        (fun r => r.matchScore) = [-1] ∧
    ¬(0 ≤ (-1 : Rat)) := by
  constructor
  · rw [discoverAgents_exZneg_eval]
    rfl
  · norm_num

end TrustMesh
